import Mathlib

/-!
Shallow embedding of the request-dispatch component of the
blueflamingos/laravel-client repository (class Laravel in src/index.ts),
together with theorems settling the specification claims about it.

The embedding models the JavaScript platform primitives the class uses
(string splitting, Headers, URL/query building, percent decoding, JSON
serialization) as executable Lean functions, and models the external
collaborators (the fetch transport, the token-resolver callback, the
ambient browser cookie store) as explicit per-call outcome parameters.
-/

/-- Truthiness of a JavaScript string-or-null value: null and the empty
string are falsy, every other string is truthy. -/
def jsTruthy : Option String → Bool
  | none => false
  | some s => s != ""

/-- Lower-casing of a header name, as performed by the WHATWG Headers
class for case-insensitive matching. -/
def lowerName (s : String) : String :=
  String.mk (s.toList.map Char.toLower)

/-- Model of JavaScript String.prototype.includes restricted to lists of
characters: does the second list occur contiguously in the first? -/
def jsIncludesList : List Char → List Char → Bool
  | [], sub => sub.isEmpty
  | c :: rest, sub => sub.isPrefixOf (c :: rest) || jsIncludesList rest sub

/-- Model of JavaScript String.prototype.includes. -/
def strIncludes (s sub : String) : Bool :=
  jsIncludesList s.toList sub.toList

/-- Model of JavaScript String.prototype.startsWith. -/
def jsStartsWith (s pre : String) : Bool :=
  pre.toList.isPrefixOf s.toList

/-- Splitting a character list on the two-character separator sequence
semicolon-space, as String.prototype.split with separator two chars does. -/
def splitSemiSpaceAux : List Char → List Char → List (List Char)
  | ';' :: ' ' :: rest, acc => acc :: splitSemiSpaceAux rest []
  | c :: rest, acc => splitSemiSpaceAux rest (acc ++ [c])
  | [], acc => [acc]

/-- Model of JavaScript cookieString.split of the separator used by
extractCsrfToken (a semicolon followed by a space). -/
def jsSplitSemiSpace (s : String) : List String :=
  (splitSemiSpaceAux s.toList []).map fun cs => String.mk cs

/-- Splitting a character list on the single character equals sign. -/
def splitEqAux : List Char → List Char → List (List Char)
  | '=' :: rest, acc => acc :: splitEqAux rest []
  | c :: rest, acc => splitEqAux rest (acc ++ [c])
  | [], acc => [acc]

/-- Model of JavaScript string.split on the equals sign. -/
def jsSplitEq (s : String) : List String :=
  (splitEqAux s.toList []).map fun cs => String.mk cs

/-- Is the character an ASCII hexadecimal digit? -/
def isHexDigitChar (c : Char) : Bool :=
  let n := c.toNat
  decide ((48 ≤ n ∧ n ≤ 57) ∨ (97 ≤ n ∧ n ≤ 102) ∨ (65 ≤ n ∧ n ≤ 70))

/-- Numeric value of an ASCII hexadecimal digit. -/
def hexDigitVal (c : Char) : Nat :=
  let n := c.toNat
  if 48 ≤ n ∧ n ≤ 57 then n - 48
  else if 97 ≤ n ∧ n ≤ 102 then n - 87
  else if 65 ≤ n ∧ n ≤ 70 then n - 55
  else 0

/-- Percent-decoding of the character list of a URI component.  Valid
single-byte ASCII escapes are decoded; any other sequence is left as it
stands.  JavaScript decodeURIComponent raises URIError on malformed or
non-UTF-8 escapes and decodes multi-byte UTF-8 escapes; no claim in this
development exercises either of those inputs, so they are out of the
model. -/
def percentDecodeAux : List Char → List Char
  | '%' :: h1 :: h2 :: rest =>
    if isHexDigitChar h1 && isHexDigitChar h2
        && decide (hexDigitVal h1 * 16 + hexDigitVal h2 < 128) then
      Char.ofNat (hexDigitVal h1 * 16 + hexDigitVal h2) :: percentDecodeAux rest
    else
      '%' :: percentDecodeAux (h1 :: h2 :: rest)
  | c :: rest => c :: percentDecodeAux rest
  | [] => []

/-- Model of JavaScript decodeURIComponent, within the limits documented
on percentDecodeAux. -/
def decodeURIComponent (s : String) : String :=
  String.mk (percentDecodeAux s.toList)

/-- Values of the JavaScript data the client handles: JSON-like trees. -/
inductive JSValue where
  | str (s : String)
  | num (n : Int)
  | boolean (b : Bool)
  | null
  | obj (fields : List (String × JSValue))

/-- Model of the JavaScript String(value) conversion for the values the
client stringifies (query-parameter values).  Integral numbers only; a
plain object stringifies to the usual object tag. -/
def jsToString : JSValue → String
  | .str s => s
  | .num n => toString n
  | .boolean b => cond b "true" "false"
  | .null => "null"
  | .obj _ => "[object Object]"

/-- Escape of one character inside a JSON string literal (quote and
backslash; no claim exercises control characters). -/
def escapeJsonChar (c : Char) : String :=
  if c = '"' then "\\\"" else if c = '\\' then "\\\\" else String.singleton c

/-- Escape of a whole JSON string literal body. -/
def jsonEscape (s : String) : String :=
  String.join (s.toList.map escapeJsonChar)

mutual

/-- Model of JSON.stringify on the JSValue tree. -/
def jsonStringify : JSValue → String
  | .str s => "\"" ++ jsonEscape s ++ "\""
  | .num n => toString n
  | .boolean b => cond b "true" "false"
  | .null => "null"
  | .obj fields => "\x7b" ++ jsonStringifyFields fields ++ "\x7d"

/-- Comma-joined field list of JSON.stringify on an object. -/
def jsonStringifyFields : List (String × JSValue) → String
  | [] => ""
  | [kv] => "\"" ++ jsonEscape kv.1 ++ "\":" ++ jsonStringify kv.2
  | kv :: rest =>
    "\"" ++ jsonEscape kv.1 ++ "\":" ++ jsonStringify kv.2 ++ ","
      ++ jsonStringifyFields rest

end

/-- Mutable header collection model.  Names are matched case-insensitively
as the WHATWG Headers class does; set replaces any entry with the same
name (the stored spelling of the name is not observed by any claim). -/
def headerSet (hs : List (String × String)) (name value : String) :
    List (String × String) :=
  hs.filter (fun p => lowerName p.1 != lowerName name) ++ [(name, value)]

/-- Case-insensitive header lookup, as Headers.get. -/
def headerGet (hs : List (String × String)) (name : String) : Option String :=
  (hs.find? (fun p => lowerName p.1 == lowerName name)).map Prod.snd

/-- Model of constructing a Headers object from caller-supplied entries
(new Headers(init.headers or empty)): each entry is set in order. -/
def headersOfList (l : List (String × String)) : List (String × String) :=
  l.foldl (fun hs p => headerSet hs p.1 p.2) []

/-- Assignment into a plain record object (record[key] = value): replaces
the value in place if the key exists, otherwise appends the entry. -/
def recordSet (r : List (String × String)) (k v : String) :
    List (String × String) :=
  if (r.find? (fun p => p.1 == k)).isSome then
    r.map (fun p => if p.1 == k then (k, v) else p)
  else r ++ [(k, v)]

/-- Translation of Laravel.headersToRecord: iterate the header collection
and assign each entry into a fresh record. -/
def headersToRecord (headers : List (String × String)) :
    List (String × String) :=
  headers.foldl (fun r p => recordSet r p.1 p.2) []

/-- NextJS cache mode values recognized by the pass-through options. -/
inductive CacheMode where
  | forceCache
  | noStore
deriving DecidableEq

/-- NextJS revalidation hint: a number of seconds or the literal false. -/
inductive Revalidate where
  | seconds (n : Int)
  | off
deriving DecidableEq

/-- Translation of the NextFetchRequestConfig interface: opaque cache
hints forwarded verbatim to the transport. -/
structure NextFetchRequestConfig where
  revalidate : Option Revalidate := none
  tags : Option (List String) := none
  cache : Option CacheMode := none
deriving DecidableEq

/-- Processed request bodies (the BodyInit values this client produces).
FormData, Blob and ArrayBuffer payloads are opaque and carry an identity
so that pass-through without modification is expressible. -/
inductive BodyVal where
  | formData (id : Nat)
  | str (s : String)
  | blob (id : Nat)
  | arrayBuffer (id : Nat)
deriving DecidableEq

/-- Translation of the RequestInit configuration the client builds:
method, headers, body, NextJS hints and the credentials mode. -/
structure RequestInit where
  method : Option String := none
  headers : List (String × String) := []
  body : Option BodyVal := none
  next : Option NextFetchRequestConfig := none
  credentials : Option String := none

/-- Raw transport response model: status line data, response headers,
the list returned by headers.getSetCookie(), and the outcomes of the two
body readers (json() and text()), which may throw. -/
structure ResponseModel where
  status : Int
  statusText : String
  headers : List (String × String)
  setCookies : List String
  jsonBody : Except Unit JSValue
  textBody : Except Unit String

/-- Translation of the LaravelResponse envelope interface. -/
structure LaravelResponse where
  data : JSValue
  status : Int
  statusText : String
  headers : List (String × String)
  config : RequestInit
  request : ResponseModel
  success : Bool

/-- Mutable state of one Laravel client instance: the private fields
baseUrl, cookies, csrfToken, bearerToken, and whether a token resolver
has been installed (the resolver itself is an external callback whose
per-call outcome lives in the request environment). -/
structure ClientState where
  baseUrl : String
  cookies : Option String
  csrfToken : Option String
  bearerToken : Option String
  hasTokenResolver : Bool

/-- Outcome of invoking the installed token resolver on one call: a
returned token-or-null, or a thrown error / rejected promise. -/
inductive ResolverOutcome where
  | ok (token : Option String)
  | err

/-- Outcome of the fetch transport call: a resolved response, or a
rejected promise (network failure). -/
inductive FetchOutcome where
  | ok (response : ResponseModel)
  | err

/-- Per-call external environment of a dispatch: browser detection and
the ambient document cookie string, the NEXT_PUBLIC_DOMAIN environment
variable, and the outcomes of the resolver and the transport. -/
structure RequestEnv where
  isBrowser : Bool
  documentCookie : String
  nextPublicDomain : Option String
  resolverOutcome : ResolverOutcome
  fetchOutcome : FetchOutcome

namespace Laravel

/-- Translation of the Laravel constructor: fails when the URL argument
is absent or empty, otherwise initializes every mutable field unset. -/
def laravelNew (url : Option String) : Except String ClientState :=
  if jsTruthy url then
    Except.ok { baseUrl := url.getD "", cookies := none, csrfToken := none,
                bearerToken := none, hasTokenResolver := false }
  else
    Except.error "URL is required for using this API"

/-- Translation of Laravel.setTokenResolver: installs the callback. -/
def setTokenResolver (st : ClientState) : ClientState :=
  { st with hasTokenResolver := true }

/-- Translation of Laravel.withCookies: stores the given cookie string
when truthy, otherwise clears the field. -/
def withCookies (st : ClientState) (cookies : Option String) : ClientState :=
  if jsTruthy cookies then { st with cookies := cookies }
  else { st with cookies := none }

/-- Translation of Laravel.withCSRFToken: stores the token
unconditionally. -/
def withCSRFToken (st : ClientState) (token : String) : ClientState :=
  { st with csrfToken := some token }

/-- Translation of Laravel.withToken: stores the token when truthy,
otherwise stores null. -/
def withToken (st : ClientState) (token : Option String) : ClientState :=
  { st with bearerToken := if jsTruthy token then token else none }

/-- Translation of Laravel.extractCsrfToken: split the cookie string on
semicolon-space, find the first entry starting with the XSRF-TOKEN= tag,
and percent-decode the segment after the first equals sign of that
entry.  The index-1 segment always exists for a found entry, so the
empty-string default is never taken. -/
def extractCsrfToken (cookiesString : String) : Option String :=
  match (jsSplitSemiSpace cookiesString).find?
      (fun row => jsStartsWith row "XSRF-TOKEN=") with
  | some m => some (decodeURIComponent ((jsSplitEq m).getD 1 ""))
  | none => none

/-- Does the response declare a JSON content type?  Translation of the
condition contentType truthy and contentType.includes of the JSON MIME
type in createLaravelResponse. -/
def declaredJson (response : ResponseModel) : Bool :=
  match headerGet response.headers "content-type" with
  | some ct => (ct != "") && strIncludes ct "application/json"
  | none => false

/-- Translation of Laravel.createLaravelResponse: decode the body as
JSON when the content type declares JSON and as text otherwise, with a
thrown decode error recovered to a null body, then populate the envelope
from the response. -/
def createLaravelResponse (response : ResponseModel) (config : RequestInit) :
    LaravelResponse :=
  let data : JSValue :=
    if declaredJson response then
      match response.jsonBody with
      | .ok v => v
      | .error _ => JSValue.null
    else
      match response.textBody with
      | .ok s => JSValue.str s
      | .error _ => JSValue.null
  { data := data
    status := response.status
    statusText := response.statusText
    headers := headersToRecord response.headers
    config := config
    request := response
    success := decide (200 ≤ response.status) && decide (response.status < 300) }

/-- Cookie value effective for one dispatch, after the ambient browser
adoption step: in a browser environment with no stored cookie value the
document cookie string is adopted (and assigned to the field), otherwise
the stored value stands. -/
def effectiveCookies (st : ClientState) (env : RequestEnv) : Option String :=
  if env.isBrowser && st.cookies.isNone then some env.documentCookie
  else st.cookies

/-- Header-composition step for the stored cookie value: when truthy it
becomes the cookie header, and a truthy XSRF-TOKEN extraction from it
becomes the X-XSRF-TOKEN header. -/
def applyCookieHeaders (cookies : Option String)
    (headers : List (String × String)) : List (String × String) :=
  match cookies with
  | some c =>
    if c ≠ "" then
      let h1 := headerSet headers "cookie" c
      match extractCsrfToken c with
      | some tok => if tok ≠ "" then headerSet h1 "X-XSRF-TOKEN" tok else h1
      | none => h1
    else headers
  | none => headers

/-- Header-composition step for the explicit CSRF token: when truthy it
overwrites the X-XSRF-TOKEN header. -/
def applyCsrfOverride (csrfToken : Option String)
    (headers : List (String × String)) : List (String × String) :=
  match csrfToken with
  | some tok => if tok ≠ "" then headerSet headers "X-XSRF-TOKEN" tok else headers
  | none => headers

/-- Header-composition step for authorization: when a resolver is
installed and the bearer token is falsy, the resolver outcome decides
the header (a thrown resolver error is caught and logged, leaving the
headers unchanged); otherwise a truthy bearer token decides it. -/
def applyAuthorization (st : ClientState) (outcome : ResolverOutcome)
    (headers : List (String × String)) : List (String × String) :=
  if st.hasTokenResolver && !(jsTruthy st.bearerToken) then
    match outcome with
    | .ok (some t) =>
      if t ≠ "" then headerSet headers "Authorization" ("Bearer " ++ t)
      else headers
    | .ok none => headers
    | .err => headers
  else
    match st.bearerToken with
    | some b =>
      if b ≠ "" then headerSet headers "Authorization" ("Bearer " ++ b)
      else headers
    | none => headers

/-- Initial headers of a dispatch: the caller-supplied entries loaded
into a Headers object, then Accept and Origin forced. -/
def baseHeaders (env : RequestEnv) (init : RequestInit) :
    List (String × String) :=
  headerSet
    (headerSet (headersOfList init.headers) "Accept" "application/json")
    "Origin" (env.nextPublicDomain.getD "")

/-- Full header composition of Laravel.request, in source order: caller
headers, Accept, Origin, cookie and cookie-derived CSRF, explicit CSRF
override, authorization. -/
def composeHeaders (st : ClientState) (env : RequestEnv) (init : RequestInit) :
    List (String × String) :=
  applyAuthorization st env.resolverOutcome
    (applyCsrfOverride st.csrfToken
      (applyCookieHeaders (effectiveCookies st env) (baseHeaders env init)))

/-- Effective request configuration of a dispatch: the caller options
with credentials include and the composed headers. -/
def requestConfig (init : RequestInit) (headers : List (String × String)) :
    RequestInit :=
  { init with credentials := some "include", headers := headers }

/-- Translation of Laravel.request: compose the headers (adopting the
ambient cookie string into the field beforehand when applicable),
dispatch through the transport, and on a resolved response clear the
stored cookies and build the envelope.  A rejected transport call
propagates as an error with the cookie field left as it stood at
dispatch time. -/
def request (st : ClientState) (env : RequestEnv) (path : String)
    (init : RequestInit) : Except Unit LaravelResponse × ClientState :=
  let headers := composeHeaders st env init
  let config := requestConfig init headers
  let stAtDispatch := { st with cookies := effectiveCookies st env }
  match env.fetchOutcome with
  | .err => (Except.error (), stAtDispatch)
  | .ok response =>
    (Except.ok (createLaravelResponse response config),
     { stAtDispatch with cookies := none })

end Laravel

/-- Origin part of a URL string: everything up to the first slash after
the scheme separator.  Model of the WHATWG base-URL origin used when the
client resolves an absolute path against its base URL. -/
def takeOrigin : List Char → List Char
  | ':' :: '/' :: '/' :: rest => ':' :: '/' :: '/' :: rest.takeWhile (· ≠ '/')
  | c :: rest => c :: takeOrigin rest
  | [] => []

/-- Origin of a base URL string. -/
def urlOrigin (base : String) : String :=
  String.mk (takeOrigin base.toList)

/-- Model of WHATWG new URL(endpoint, base) href resolution, restricted
to the shapes this client uses: an absolute endpoint (containing a
scheme separator) stands alone, otherwise the endpoint is an absolute
path resolved against the origin of the base URL.  Endpoints carrying
their own query string are not exercised by any claim. -/
def resolveURL (endpoint base : String) : String :=
  if strIncludes endpoint "://" then endpoint else urlOrigin base ++ endpoint

/-- URL object model: the resolved href without query, plus the list of
search parameters in insertion order (URLSearchParams). -/
structure JsURL where
  base : String
  params : List (String × String)
deriving DecidableEq

/-- Model of new URL(endpoint, base): resolved href, empty parameters. -/
def newURL (endpoint base : String) : JsURL :=
  { base := resolveURL endpoint base, params := [] }

/-- Percent-encoding of one character under the form-urlencoded
serializer used by URLSearchParams (ASCII model; non-ASCII characters,
which serialize per UTF-8 byte, are not exercised by any claim). -/
def hexDigitUpper (n : Nat) : Char :=
  if n < 10 then Char.ofNat (48 + n) else Char.ofNat (55 + n)

/-- Two-digit uppercase hexadecimal rendering of a byte. -/
def hexUpper2 (n : Nat) : String :=
  String.mk [hexDigitUpper (n / 16 % 16), hexDigitUpper (n % 16)]

/-- Form-urlencoded encoding of one character. -/
def formEncodeChar (c : Char) : String :=
  if c.isAlphanum || c = '*' || c = '-' || c = '.' || c = '_' then
    String.singleton c
  else if c = ' ' then "+"
  else "%" ++ hexUpper2 c.toNat

/-- Form-urlencoded encoding of a string. -/
def formEncode (s : String) : String :=
  String.join (s.toList.map formEncodeChar)

/-- Serialization of a URLSearchParams list. -/
def serializeParams (ps : List (String × String)) : String :=
  String.intercalate "&" (ps.map fun kv => formEncode kv.1 ++ "=" ++ formEncode kv.2)

/-- Model of URL.toString: href plus the serialized query when any
parameter is present. -/
def JsURL.render (u : JsURL) : String :=
  u.base ++ (if u.params.isEmpty then "" else "?" ++ serializeParams u.params)

/-- Argument shapes accepted at runtime for the params option of get: a
plain mapping, or (per the repository README) a raw query string.  The
declared TypeScript type admits only the mapping. -/
inductive GetParams where
  | mapping (entries : List (String × JSValue))
  | raw (s : String)

/-- Options object of Laravel.get. -/
structure GetOptions where
  params : Option GetParams := none
  next : Option NextFetchRequestConfig := none

/-- JavaScript truthiness of a params value: an object is always truthy,
a string is truthy when non-empty. -/
def getParamsTruthy : GetParams → Bool
  | .mapping _ => true
  | .raw s => s != ""

/-- Model of Object.keys iteration with indexing as Laravel.get performs
it on the params value: a mapping yields its own entries in insertion
order, while a string yields one entry per character whose key is the
decimal character index and whose value is that one-character string. -/
def jsObjectKeysVals : GetParams → List (String × JSValue)
  | .mapping entries => entries
  | .raw s => s.toList.enum.map fun p => (toString p.1, JSValue.str (String.singleton p.2))

namespace Laravel

/-- URL building of Laravel.get: resolve the endpoint against the base
URL, then, when the params option is truthy, append one stringified
search parameter per Object.keys entry of the params value. -/
def getUrl (endpoint baseUrl : String) (options : Option GetOptions) : JsURL :=
  let url := newURL endpoint baseUrl
  match options with
  | some o =>
    match o.params with
    | some p =>
      if getParamsTruthy p then
        (jsObjectKeysVals p).foldl
          (fun u kv => { u with params := u.params ++ [(kv.1, jsToString kv.2)] }) url
      else url
    | none => url
  | none => url

/-- Translation of Laravel.get: build the URL, issue a GET through
request with the optional NextJS hints forwarded. -/
def get (st : ClientState) (env : RequestEnv) (endpoint : String)
    (options : Option GetOptions) : Except Unit LaravelResponse × ClientState :=
  let url := getUrl endpoint st.baseUrl options
  let requestOptions : RequestInit :=
    { method := some "GET"
      next := match options with
              | some o => o.next
              | none => none }
  request st env (JsURL.render url) requestOptions

/-- Body arguments accepted by the mutating verbs, mirroring the runtime
type tests of Laravel.sendRequest: FormData, string, Blob, ArrayBuffer,
plain object, and primitives that fall through every test. -/
inductive JsBody where
  | formData (id : Nat)
  | str (s : String)
  | blob (id : Nat)
  | arrayBuffer (id : Nat)
  | obj (entries : List (String × JSValue))
  | num (n : Int)
  | boolean (b : Bool)

/-- Body-type detection of Laravel.sendRequest, in source order:
FormData passes through; a string passes through with a text/plain
content type; Blob and ArrayBuffer pass through; any other object is
JSON-serialized with an application/json content type; a primitive that
matches no test, or an absent body, yields no body.  Returns the
processed body and the headers record. -/
def processBody : Option JsBody → Option BodyVal × List (String × String)
  | none => (none, [])
  | some b =>
    match b with
    | .formData id => (some (BodyVal.formData id), [])
    | .str s => (some (BodyVal.str s), [("Content-Type", "text/plain")])
    | .blob id => (some (BodyVal.blob id), [])
    | .arrayBuffer id => (some (BodyVal.arrayBuffer id), [])
    | .obj entries =>
      (some (BodyVal.str (jsonStringify (JSValue.obj entries))),
       [("Content-Type", "application/json")])
    | .num _ => (none, [])
    | .boolean _ => (none, [])

/-- Request options built by Laravel.sendRequest from the detected body. -/
def sendInit (method : String) (body : Option JsBody)
    (nextOptions : Option NextFetchRequestConfig) : RequestInit :=
  { method := some method
    headers := (processBody body).2
    body := (processBody body).1
    next := nextOptions }

/-- Translation of Laravel.sendRequest: build the URL against the base,
detect the body type, dispatch through request, and on a response whose
raw headers carry Set-Cookie values store their semicolon-space join as
the new cookie value for the next request. -/
def sendRequest (st : ClientState) (env : RequestEnv) (endpoint method : String)
    (body : Option JsBody) (nextOptions : Option NextFetchRequestConfig) :
    Except Unit LaravelResponse × ClientState :=
  let url := newURL endpoint st.baseUrl
  let requestOptions := sendInit method body nextOptions
  match request st env (JsURL.render url) requestOptions with
  | (Except.error e, st2) => (Except.error e, st2)
  | (Except.ok response, st2) =>
    let setCookieHeaders := response.request.setCookies
    if setCookieHeaders.length > 0 then
      (Except.ok response,
       { st2 with cookies := some (String.intercalate "; " setCookieHeaders) })
    else
      (Except.ok response, st2)

/-- Translation of Laravel.post. -/
def post (st : ClientState) (env : RequestEnv) (endpoint : String)
    (body : Option JsBody) (nextOptions : Option NextFetchRequestConfig) :
    Except Unit LaravelResponse × ClientState :=
  sendRequest st env endpoint "POST" body nextOptions

/-- Translation of Laravel.put. -/
def put (st : ClientState) (env : RequestEnv) (endpoint : String)
    (body : Option JsBody) (nextOptions : Option NextFetchRequestConfig) :
    Except Unit LaravelResponse × ClientState :=
  sendRequest st env endpoint "PUT" body nextOptions

/-- Translation of Laravel.patch. -/
def patch (st : ClientState) (env : RequestEnv) (endpoint : String)
    (body : Option JsBody) (nextOptions : Option NextFetchRequestConfig) :
    Except Unit LaravelResponse × ClientState :=
  sendRequest st env endpoint "PATCH" body nextOptions

/-- Translation of Laravel.delete. -/
def delete (st : ClientState) (env : RequestEnv) (endpoint : String)
    (body : Option JsBody) (nextOptions : Option NextFetchRequestConfig) :
    Except Unit LaravelResponse × ClientState :=
  sendRequest st env endpoint "DELETE" body nextOptions

end Laravel

/-- Sample client state: freshly constructed against a base URL. -/
def stSample : ClientState :=
  { baseUrl := "https://h", cookies := none, csrfToken := none,
    bearerToken := none, hasTokenResolver := false }

/-- Sample resolved JSON response. -/
def respJson : ResponseModel :=
  { status := 200, statusText := "OK",
    headers := [("content-type", "application/json")],
    setCookies := [],
    jsonBody := Except.ok (JSValue.obj []),
    textBody := Except.ok "" }

/-- Sample response carrying two Set-Cookie values. -/
def respSetCookie : ResponseModel :=
  { respJson with setCookies := ["a=1", "b=2"] }

/-- Sample JSON response whose body reader throws. -/
def respBadJson : ResponseModel :=
  { respJson with jsonBody := Except.error () }

/-- Sample environment: server side, transport resolves with respJson. -/
def envOk : RequestEnv :=
  { isBrowser := false, documentCookie := "", nextPublicDomain := none,
    resolverOutcome := ResolverOutcome.ok none,
    fetchOutcome := FetchOutcome.ok respJson }

/-- Sample environment whose transport call rejects. -/
def envErr : RequestEnv :=
  { envOk with fetchOutcome := FetchOutcome.err }

/-- Sample environment with a chosen fetch and resolver outcome. -/
def envWith (f : FetchOutcome) (ro : ResolverOutcome) : RequestEnv :=
  { envOk with fetchOutcome := f, resolverOutcome := ro }

/-- Client state holding a stale cookie value, for the transport-failure
counterexample. -/
def stC1 : ClientState := { stSample with cookies := some "a=1" }

/-- Client state with a bearer token installed through withToken. -/
def stC2 : ClientState := Laravel.withToken stSample (some "tk")

/-- Client state with a token resolver installed. -/
def stC3 : ClientState := Laravel.setTokenResolver stSample

/-- Client state with a cookie carrying an XSRF-TOKEN entry and an
explicitly set empty CSRF token. -/
def stC4 : ClientState :=
  Laravel.withCSRFToken
    (Laravel.withCookies stSample (some "XSRF-TOKEN=abc%20def")) ""

/-- Client state with a cookie carrying an XSRF-TOKEN entry and no
explicit CSRF token. -/
def stC4w : ClientState :=
  Laravel.withCookies stSample (some "XSRF-TOKEN=abc%20def")

/-- Client state with a cookie whose XSRF-TOKEN value itself contains an
equals sign. -/
def stC10 : ClientState :=
  Laravel.withCookies stSample (some "XSRF-TOKEN=a=b")

/-- Setting a header makes it retrievable under the same name. -/
theorem headerGet_set_self (hs : List (String × String)) (n v : String) :
    headerGet (headerSet hs n v) n = some v := by
  unfold headerGet headerSet
  rw [List.find?_append]
  have h1 : (hs.filter fun p => lowerName p.1 != lowerName n).find?
      (fun p => lowerName p.1 == lowerName n) = none := by
    rw [List.find?_eq_none]
    intro x hx
    have hx2 := (List.mem_filter.1 hx).2
    simpa using hx2
  rw [h1]
  simp [List.find?]

/-- Setting a header leaves lookups of any other name unchanged. -/
theorem headerGet_set_ne (hs : List (String × String)) (n₁ v n₂ : String)
    (h : lowerName n₂ ≠ lowerName n₁) :
    headerGet (headerSet hs n₁ v) n₂ = headerGet hs n₂ := by
  unfold headerGet headerSet
  rw [List.find?_append]
  have h2 : List.find? (fun p => lowerName p.1 == lowerName n₂) [(n₁, v)] = none := by
    have hne : (lowerName n₁ == lowerName n₂) = false :=
      beq_eq_false_iff_ne.mpr (Ne.symm h)
    simp [List.find?, hne]
  have h3 : (hs.filter fun p => lowerName p.1 != lowerName n₁).find?
      (fun p => lowerName p.1 == lowerName n₂)
      = hs.find? (fun p => lowerName p.1 == lowerName n₂) := by
    induction hs with
    | nil => rfl
    | cons a t ih =>
      by_cases ha : lowerName a.1 = lowerName n₁
      · have hdrop : (lowerName a.1 != lowerName n₁) = false := by simp [ha]
        have hpa : ¬ ((lowerName a.1 == lowerName n₂) = true) := by
          rw [beq_iff_eq, ha]
          exact Ne.symm h
        rw [List.filter_cons, if_neg (by simp [hdrop]),
          @List.find?_cons_of_neg _ (fun p => lowerName p.1 == lowerName n₂) a t hpa, ih]
      · have hkeep : (lowerName a.1 != lowerName n₁) = true := by simp [ha]
        by_cases hpa : lowerName a.1 = lowerName n₂
        · have hq : (lowerName a.1 == lowerName n₂) = true := beq_iff_eq.mpr hpa
          rw [List.filter_cons, if_pos (by simp [hkeep]),
            @List.find?_cons_of_pos _ (fun p => lowerName p.1 == lowerName n₂) a
              (List.filter (fun p => lowerName p.1 != lowerName n₁) t) hq,
            @List.find?_cons_of_pos _ (fun p => lowerName p.1 == lowerName n₂) a t hq]
        · have hq : ¬ ((lowerName a.1 == lowerName n₂) = true) := by
            rw [beq_iff_eq]; exact hpa
          rw [List.filter_cons, if_pos (by simp [hkeep]),
            @List.find?_cons_of_neg _ (fun p => lowerName p.1 == lowerName n₂) a
              (List.filter (fun p => lowerName p.1 != lowerName n₁) t) hq,
            @List.find?_cons_of_neg _ (fun p => lowerName p.1 == lowerName n₂) a t hq, ih]
  rw [h2, h3]
  cases hs.find? (fun p => lowerName p.1 == lowerName n₂) <;> rfl

namespace Laravel
/-- Cookie-stage composition does not touch header names other than the
cookie header and the CSRF header. -/
theorem applyCookieHeaders_get_other (cookies : Option String)
    (hs : List (String × String)) (k : String)
    (h1 : lowerName k ≠ lowerName "cookie")
    (h2 : lowerName k ≠ lowerName "X-XSRF-TOKEN") :
    headerGet (applyCookieHeaders cookies hs) k = headerGet hs k := by
  unfold applyCookieHeaders
  cases cookies with
  | none => rfl
  | some c =>
    dsimp only
    by_cases hc : c ≠ ""
    · rw [if_pos hc]
      cases hx : extractCsrfToken c with
      | none => exact headerGet_set_ne hs "cookie" c k h1
      | some tok =>
        dsimp only
        by_cases ht : tok ≠ ""
        · rw [if_pos ht, headerGet_set_ne _ "X-XSRF-TOKEN" tok k h2,
            headerGet_set_ne hs "cookie" c k h1]
        · rw [if_neg ht]
          exact headerGet_set_ne hs "cookie" c k h1
    · rw [if_neg hc]

/-- Explicit-CSRF-stage composition does not touch header names other
than the CSRF header. -/
theorem applyCsrfOverride_get_other (csrfToken : Option String)
    (hs : List (String × String)) (k : String)
    (h : lowerName k ≠ lowerName "X-XSRF-TOKEN") :
    headerGet (applyCsrfOverride csrfToken hs) k = headerGet hs k := by
  unfold applyCsrfOverride
  cases csrfToken with
  | none => rfl
  | some tok =>
    dsimp only
    by_cases ht : tok ≠ ""
    · rw [if_pos ht]
      exact headerGet_set_ne hs "X-XSRF-TOKEN" tok k h
    · rw [if_neg ht]

/-- Authorization-stage composition does not touch header names other
than the authorization header. -/
theorem applyAuthorization_get_other (st : ClientState)
    (outcome : ResolverOutcome) (hs : List (String × String)) (k : String)
    (h : lowerName k ≠ lowerName "Authorization") :
    headerGet (applyAuthorization st outcome hs) k = headerGet hs k := by
  unfold applyAuthorization
  by_cases hcond : (st.hasTokenResolver && !(jsTruthy st.bearerToken)) = true
  · rw [if_pos hcond]
    cases outcome with
    | err => rfl
    | ok t =>
      cases t with
      | none => rfl
      | some tok =>
        dsimp only
        by_cases ht : tok ≠ ""
        · rw [if_pos ht]
          exact headerGet_set_ne hs "Authorization" ("Bearer " ++ tok) k h
        · rw [if_neg ht]
  · rw [if_neg hcond]
    cases hb : st.bearerToken with
    | none => rfl
    | some b =>
      dsimp only
      by_cases hbe : b ≠ ""
      · rw [if_pos hbe]
        exact headerGet_set_ne hs "Authorization" ("Bearer " ++ b) k h
      · rw [if_neg hbe]

/-- Base-stage composition does not touch header names other than Accept
and Origin. -/
theorem baseHeaders_get_other (env : RequestEnv) (init : RequestInit)
    (k : String)
    (h1 : lowerName k ≠ lowerName "Accept")
    (h2 : lowerName k ≠ lowerName "Origin") :
    headerGet (baseHeaders env init) k = headerGet (headersOfList init.headers) k := by
  unfold baseHeaders
  rw [headerGet_set_ne _ "Origin" _ k h2, headerGet_set_ne _ "Accept" _ k h1]

/-- Value of the authorization header after the authorization stage. -/
theorem applyAuthorization_get_auth (st : ClientState)
    (outcome : ResolverOutcome) (hs : List (String × String)) :
    headerGet (applyAuthorization st outcome hs) "Authorization" =
      (if st.hasTokenResolver && !(jsTruthy st.bearerToken) then
        match outcome with
        | .ok (some t) =>
          if t ≠ "" then some ("Bearer " ++ t)
          else headerGet hs "Authorization"
        | .ok none => headerGet hs "Authorization"
        | .err => headerGet hs "Authorization"
      else
        match st.bearerToken with
        | some b =>
          if b ≠ "" then some ("Bearer " ++ b)
          else headerGet hs "Authorization"
        | none => headerGet hs "Authorization") := by
  unfold applyAuthorization
  by_cases hcond : (st.hasTokenResolver && !(jsTruthy st.bearerToken)) = true
  · rw [if_pos hcond, if_pos hcond]
    cases outcome with
    | err => rfl
    | ok t =>
      cases t with
      | none => rfl
      | some tok =>
        dsimp only
        by_cases ht : tok ≠ ""
        · rw [if_pos ht, if_pos ht]
          exact headerGet_set_self hs "Authorization" ("Bearer " ++ tok)
        · rw [if_neg ht, if_neg ht]
  · rw [if_neg hcond, if_neg hcond]
    cases hb : st.bearerToken with
    | none => rfl
    | some b =>
      dsimp only
      by_cases hbe : b ≠ ""
      · rw [if_pos hbe, if_pos hbe]
        exact headerGet_set_self hs "Authorization" ("Bearer " ++ b)
      · rw [if_neg hbe, if_neg hbe]

/-- When the resolver branch is not taken, the authorization stage does
not depend on the resolver outcome. -/
theorem applyAuthorization_indep (st : ClientState)
    (o1 o2 : ResolverOutcome) (hs : List (String × String))
    (hcond : (st.hasTokenResolver && !(jsTruthy st.bearerToken)) = false) :
    applyAuthorization st o1 hs = applyAuthorization st o2 hs := by
  unfold applyAuthorization
  rw [if_neg (by simp [hcond]), if_neg (by simp [hcond])]

end Laravel

namespace Laravel

/-- Value of the authorization header of a fully composed dispatch. -/
theorem composeHeaders_get_auth (st : ClientState) (env : RequestEnv)
    (init : RequestInit) :
    headerGet (composeHeaders st env init) "Authorization" =
      (if st.hasTokenResolver && !(jsTruthy st.bearerToken) then
        match env.resolverOutcome with
        | .ok (some t) =>
          if t ≠ "" then some ("Bearer " ++ t)
          else headerGet (headersOfList init.headers) "Authorization"
        | .ok none => headerGet (headersOfList init.headers) "Authorization"
        | .err => headerGet (headersOfList init.headers) "Authorization"
      else
        match st.bearerToken with
        | some b =>
          if b ≠ "" then some ("Bearer " ++ b)
          else headerGet (headersOfList init.headers) "Authorization"
        | none => headerGet (headersOfList init.headers) "Authorization") := by
  unfold composeHeaders
  rw [applyAuthorization_get_auth,
    applyCsrfOverride_get_other _ _ _ (by decide),
    applyCookieHeaders_get_other _ _ _ (by decide) (by decide),
    baseHeaders_get_other _ _ _ (by decide) (by decide)]

/-- A composed dispatch never touches the content-type header: it is
whatever the caller-supplied options carried. -/
theorem composeHeaders_get_contentType (st : ClientState) (env : RequestEnv)
    (init : RequestInit) :
    headerGet (composeHeaders st env init) "Content-Type" =
      headerGet (headersOfList init.headers) "Content-Type" := by
  unfold composeHeaders
  rw [applyAuthorization_get_other _ _ _ _ (by decide),
    applyCsrfOverride_get_other _ _ _ (by decide),
    applyCookieHeaders_get_other _ _ _ (by decide) (by decide),
    baseHeaders_get_other _ _ _ (by decide) (by decide)]

/-- Value of the cookie header of a fully composed dispatch: the truthy
effective cookie value, else whatever the caller supplied. -/
theorem composeHeaders_get_cookie (st : ClientState) (env : RequestEnv)
    (init : RequestInit) :
    headerGet (composeHeaders st env init) "cookie" =
      (match effectiveCookies st env with
       | some c =>
         if c ≠ "" then some c
         else headerGet (headersOfList init.headers) "cookie"
       | none => headerGet (headersOfList init.headers) "cookie") := by
  unfold composeHeaders
  rw [applyAuthorization_get_other _ _ _ _ (by decide),
    applyCsrfOverride_get_other _ _ _ (by decide)]
  cases hec : effectiveCookies st env with
  | none =>
    unfold applyCookieHeaders
    dsimp only
    exact baseHeaders_get_other _ _ _ (by decide) (by decide)
  | some c =>
    unfold applyCookieHeaders
    dsimp only
    by_cases hc : c ≠ ""
    · rw [if_pos hc, if_pos hc]
      cases hx : extractCsrfToken c with
      | none => exact headerGet_set_self _ "cookie" c
      | some tok =>
        dsimp only
        by_cases ht : tok ≠ ""
        · rw [if_pos ht, headerGet_set_ne _ "X-XSRF-TOKEN" tok "cookie" (by decide)]
          exact headerGet_set_self _ "cookie" c
        · rw [if_neg ht]
          exact headerGet_set_self _ "cookie" c
    · rw [if_neg hc, if_neg hc]
      exact baseHeaders_get_other _ _ _ (by decide) (by decide)

/-- Value of the CSRF header after the cookie stage alone. -/
theorem applyCookieHeaders_get_xsrf (cookies : Option String)
    (hs : List (String × String)) :
    headerGet (applyCookieHeaders cookies hs) "X-XSRF-TOKEN" =
      (match cookies with
       | some c =>
         if c ≠ "" then
           match extractCsrfToken c with
           | some t2 =>
             if t2 ≠ "" then some t2 else headerGet hs "X-XSRF-TOKEN"
           | none => headerGet hs "X-XSRF-TOKEN"
         else headerGet hs "X-XSRF-TOKEN"
       | none => headerGet hs "X-XSRF-TOKEN") := by
  unfold applyCookieHeaders
  cases cookies with
  | none => rfl
  | some c =>
    dsimp only
    by_cases hc : c ≠ ""
    · rw [if_pos hc, if_pos hc]
      cases hx : extractCsrfToken c with
      | none => exact headerGet_set_ne hs "cookie" c "X-XSRF-TOKEN" (by decide)
      | some tok =>
        dsimp only
        by_cases ht : tok ≠ ""
        · rw [if_pos ht, if_pos ht]
          exact headerGet_set_self _ "X-XSRF-TOKEN" tok
        · rw [if_neg ht, if_neg ht]
          exact headerGet_set_ne hs "cookie" c "X-XSRF-TOKEN" (by decide)
    · rw [if_neg hc, if_neg hc]

/-- Value of the CSRF header of a fully composed dispatch: the truthy
explicit token wins, else the truthy cookie-derived extraction, else
whatever the caller supplied. -/
theorem composeHeaders_get_xsrf (st : ClientState) (env : RequestEnv)
    (init : RequestInit) :
    headerGet (composeHeaders st env init) "X-XSRF-TOKEN" =
      (match st.csrfToken with
       | some tok =>
         if tok ≠ "" then some tok
         else
           match effectiveCookies st env with
           | some c =>
             if c ≠ "" then
               match extractCsrfToken c with
               | some t2 =>
                 if t2 ≠ "" then some t2
                 else headerGet (headersOfList init.headers) "X-XSRF-TOKEN"
               | none => headerGet (headersOfList init.headers) "X-XSRF-TOKEN"
             else headerGet (headersOfList init.headers) "X-XSRF-TOKEN"
           | none => headerGet (headersOfList init.headers) "X-XSRF-TOKEN"
       | none =>
         match effectiveCookies st env with
         | some c =>
           if c ≠ "" then
             match extractCsrfToken c with
             | some t2 =>
               if t2 ≠ "" then some t2
               else headerGet (headersOfList init.headers) "X-XSRF-TOKEN"
             | none => headerGet (headersOfList init.headers) "X-XSRF-TOKEN"
           else headerGet (headersOfList init.headers) "X-XSRF-TOKEN"
         | none => headerGet (headersOfList init.headers) "X-XSRF-TOKEN") := by
  have hcook : headerGet
      (applyCookieHeaders (effectiveCookies st env) (baseHeaders env init))
      "X-XSRF-TOKEN" =
      (match effectiveCookies st env with
       | some c =>
         if c ≠ "" then
           match extractCsrfToken c with
           | some t2 =>
             if t2 ≠ "" then some t2
             else headerGet (headersOfList init.headers) "X-XSRF-TOKEN"
           | none => headerGet (headersOfList init.headers) "X-XSRF-TOKEN"
         else headerGet (headersOfList init.headers) "X-XSRF-TOKEN"
       | none => headerGet (headersOfList init.headers) "X-XSRF-TOKEN") := by
    rw [applyCookieHeaders_get_xsrf,
      baseHeaders_get_other _ _ _ (by decide) (by decide)]
  unfold composeHeaders
  rw [applyAuthorization_get_other _ _ _ _ (by decide)]
  unfold applyCsrfOverride
  cases st.csrfToken with
  | none =>
    dsimp only
    exact hcook
  | some tok =>
    dsimp only
    by_cases ht : tok ≠ ""
    · rw [if_pos ht, if_pos ht]
      exact headerGet_set_self _ "X-XSRF-TOKEN" tok
    · rw [if_neg ht, if_neg ht]
      exact hcook

/-- Unfolding of a dispatch whose transport call resolves. -/
theorem request_ok (st : ClientState) (env : RequestEnv) (path : String)
    (init : RequestInit) (resp : ResponseModel)
    (hf : env.fetchOutcome = FetchOutcome.ok resp) :
    request st env path init =
      (Except.ok (createLaravelResponse resp
          (requestConfig init (composeHeaders st env init))),
       { st with cookies := none }) := by
  unfold request
  rw [hf]

/-- Unfolding of a dispatch whose transport call rejects: the error
propagates and the cookie field keeps the value it had at dispatch. -/
theorem request_err (st : ClientState) (env : RequestEnv) (path : String)
    (init : RequestInit) (hf : env.fetchOutcome = FetchOutcome.err) :
    request st env path init =
      (Except.error (), { st with cookies := effectiveCookies st env }) := by
  unfold request
  rw [hf]

/-- Unfolding of a mutating-verb dispatch whose transport call resolves. -/
theorem sendRequest_ok (st : ClientState) (env : RequestEnv)
    (endpoint method : String) (body : Option JsBody)
    (nextOptions : Option NextFetchRequestConfig) (resp : ResponseModel)
    (hf : env.fetchOutcome = FetchOutcome.ok resp) :
    sendRequest st env endpoint method body nextOptions =
      (Except.ok (createLaravelResponse resp
          (requestConfig (sendInit method body nextOptions)
            (composeHeaders st env (sendInit method body nextOptions)))),
       if resp.setCookies.length > 0 then
         { st with cookies := some (String.intercalate "; " resp.setCookies) }
       else { st with cookies := none }) := by
  unfold sendRequest
  dsimp only
  rw [request_ok st env _ _ resp hf]
  dsimp only [createLaravelResponse]
  by_cases hl : resp.setCookies.length > 0
  · rw [if_pos hl, if_pos hl]
  · rw [if_neg hl, if_neg hl]

end Laravel

/-- C8: for every response envelope produced by a dispatch, the derived
success flag is true if and only if the numeric status lies in the
half-open interval from 200 to 300. -/
theorem success_iff_status_2xx (resp : ResponseModel) (config : RequestInit) :
    (Laravel.createLaravelResponse resp config).success = true ↔
      (200 ≤ resp.status ∧ resp.status < 300) := by
  simp only [Laravel.createLaravelResponse, Bool.and_eq_true, decide_eq_true_iff]

/-- C9: when the response body cannot be parsed per its declared content
type (the JSON or text reader throws), the envelope body is null, no
exception escapes, and every other envelope field is still populated
from the response. -/
theorem decode_failure_yields_null_body (resp : ResponseModel)
    (config : RequestInit)
    (hfail : (Laravel.declaredJson resp = true ∧ resp.jsonBody = Except.error ())
      ∨ (Laravel.declaredJson resp = false ∧ resp.textBody = Except.error ())) :
    (Laravel.createLaravelResponse resp config).data = JSValue.null
  ∧ (Laravel.createLaravelResponse resp config).status = resp.status
  ∧ (Laravel.createLaravelResponse resp config).statusText = resp.statusText
  ∧ (Laravel.createLaravelResponse resp config).headers = headersToRecord resp.headers
  ∧ (Laravel.createLaravelResponse resp config).config = config
  ∧ (Laravel.createLaravelResponse resp config).request = resp
  ∧ (Laravel.createLaravelResponse resp config).success
      = (decide (200 ≤ resp.status) && decide (resp.status < 300)) := by
  rcases hfail with ⟨hj, he⟩ | ⟨hj, he⟩ <;>
    simp [Laravel.createLaravelResponse, hj, he]

/-- Witness for C9 at a concrete response whose JSON reader throws. -/
theorem decode_failure_yields_null_body_witness :
    Laravel.declaredJson respBadJson = true
  ∧ (Laravel.createLaravelResponse respBadJson {}).data = JSValue.null
  ∧ (Laravel.createLaravelResponse respBadJson {}).status = 200 := by
  have h := decode_failure_yields_null_body respBadJson {} (Or.inl ⟨rfl, rfl⟩)
  exact ⟨rfl, h.1, h.2.1.trans rfl⟩

/-- C10: an XSRF-TOKEN cookie value containing an equals sign is
truncated to the portion before the second equals sign, because the
entry is split on the equals sign and only the second segment is taken,
and the truncated value is what reaches the X-XSRF-TOKEN header; cookie
entries are recognized only when separated by exactly semicolon-space. -/
theorem extractCsrfToken_truncates_and_splits_strictly :
    Laravel.extractCsrfToken "XSRF-TOKEN=a=b" = some "a"
  ∧ ((Laravel.request stC10 envOk "/x" {}).1.map
      (fun r => headerGet r.config.headers "X-XSRF-TOKEN")) = Except.ok (some "a")
  ∧ Laravel.extractCsrfToken "foo=1;XSRF-TOKEN=tok" = none
  ∧ Laravel.extractCsrfToken "foo=1; XSRF-TOKEN=tok" = some "tok" := by
  exact ⟨rfl, rfl, rfl, rfl⟩

/-- C1 counterexample: a dispatch whose transport call rejects leaves
the stored cookie value in place, contradicting the claim that the
field is null on every return, even on transport failure. -/
theorem cookies_not_cleared_on_transport_failure :
    (Laravel.request stC1 envErr "/x" {}).2.cookies ≠ none
  ∧ (Laravel.request stC1 envErr "/x" {}).2.cookies = some "a=1"
  ∧ (Laravel.request stC1 envErr "/x" {}).1 = Except.error () := by
  have h2 : (Laravel.request stC1 envErr "/x" {}).2.cookies = some "a=1" := rfl
  exact ⟨by rw [h2]; simp, h2, rfl⟩

/-- C1 amended: after every dispatch whose transport call resolves, the
stored cookie value is null, regardless of its prior value; when the
transport rejects, the rejection propagates and the stored value is
kept. -/
theorem cookies_cleared_on_resolved_dispatch (st : ClientState)
    (env : RequestEnv) (path : String) (init : RequestInit)
    (resp : ResponseModel) (hf : env.fetchOutcome = FetchOutcome.ok resp) :
    (Laravel.request st env path init).2.cookies = none := by
  rw [Laravel.request_ok st env path init resp hf]

/-- Witness for the amended C1 at a concrete dispatch. -/
theorem cookies_cleared_on_resolved_dispatch_witness :
    (Laravel.request stC1 envOk "/x" {}).2.cookies = none :=
  cookies_cleared_on_resolved_dispatch stC1 envOk "/x" {} respJson rfl

/-- When the authorization branch that consults the resolver is not
taken, a dispatch is entirely independent of the resolver outcome. -/
theorem Laravel.request_resolver_indep (st : ClientState) (env : RequestEnv)
    (out : ResolverOutcome) (path : String) (init : RequestInit)
    (hcond : (st.hasTokenResolver && !(jsTruthy st.bearerToken)) = false) :
    Laravel.request st { env with resolverOutcome := out } path init
      = Laravel.request st env path init := by
  obtain ⟨ib, dc, npd, ro, fo⟩ := env
  dsimp only
  cases fo with
  | err =>
    rw [Laravel.request_err st ⟨ib, dc, npd, out, FetchOutcome.err⟩ path init rfl,
      Laravel.request_err st ⟨ib, dc, npd, ro, FetchOutcome.err⟩ path init rfl]
    rfl
  | ok resp =>
    rw [Laravel.request_ok st ⟨ib, dc, npd, out, FetchOutcome.ok resp⟩ path init resp rfl,
      Laravel.request_ok st ⟨ib, dc, npd, ro, FetchOutcome.ok resp⟩ path init resp rfl]
    have hcomp : Laravel.composeHeaders st ⟨ib, dc, npd, out, FetchOutcome.ok resp⟩ init
        = Laravel.composeHeaders st ⟨ib, dc, npd, ro, FetchOutcome.ok resp⟩ init := by
      unfold Laravel.composeHeaders
      exact Laravel.applyAuthorization_indep st out ro _ hcond
    rw [hcomp]

/-- C2: whenever the bearer token is set (through withToken, the only
writer of the field), the composed authorization header of a dispatch is
Bearer followed by that token, and the dispatch result does not depend
on the resolver outcome at all, whether or not a resolver is installed. -/
theorem bearer_token_wins_over_resolver (st : ClientState) (env : RequestEnv)
    (path : String) (init : RequestInit) (t : String)
    (hset : ∃ st₀ tok, st = Laravel.withToken st₀ tok)
    (hb : st.bearerToken = some t) :
    (∀ r, (Laravel.request st env path init).1 = Except.ok r →
      headerGet r.config.headers "Authorization" = some ("Bearer " ++ t))
  ∧ (∀ out, Laravel.request st { env with resolverOutcome := out } path init
      = Laravel.request st env path init) := by
  have ht : t ≠ "" := by
    obtain ⟨st₀, tok, rfl⟩ := hset
    unfold Laravel.withToken at hb
    dsimp only at hb
    by_cases hj : jsTruthy tok = true
    · rw [if_pos hj] at hb
      rw [hb] at hj
      simpa [jsTruthy] using hj
    · rw [if_neg hj] at hb
      exact absurd hb (by simp)
  have hjt : jsTruthy st.bearerToken = true := by
    rw [hb]
    simpa [jsTruthy] using ht
  have hcond : (st.hasTokenResolver && !(jsTruthy st.bearerToken)) = false := by
    rw [hjt]
    simp
  constructor
  · intro r hr
    cases hfo : env.fetchOutcome with
    | err =>
      rw [Laravel.request_err st env path init hfo] at hr
      exact absurd hr (by simp)
    | ok resp =>
      rw [Laravel.request_ok st env path init resp hfo] at hr
      obtain rfl := Except.ok.inj hr
      show headerGet (Laravel.composeHeaders st env init) "Authorization"
        = some ("Bearer " ++ t)
      rw [Laravel.composeHeaders_get_auth, hcond]
      simp [hb, ht]
  · intro out
    exact Laravel.request_resolver_indep st env out path init hcond

/-- Witness for C2 at a concrete dispatch with a bearer token and an
erring resolver outcome. -/
theorem bearer_token_wins_over_resolver_witness :
    ((Laravel.request stC2 envOk "/x" {}).1.map
      (fun r => headerGet r.config.headers "Authorization"))
      = Except.ok (some "Bearer tk")
  ∧ Laravel.request stC2 { envOk with resolverOutcome := ResolverOutcome.err } "/x" {}
      = Laravel.request stC2 envOk "/x" {} := by
  have h := bearer_token_wins_over_resolver stC2 envOk "/x" {} "tk"
    ⟨stSample, some "tk", rfl⟩ rfl
  have hre : (Laravel.request stC2 envOk "/x" {}).1
      = Except.ok (Laravel.createLaravelResponse respJson
          (Laravel.requestConfig {} (Laravel.composeHeaders stC2 envOk {}))) := by
    rw [Laravel.request_ok stC2 envOk "/x" {} respJson rfl]
  constructor
  · rw [hre]
    simp only [Except.map]
    rw [h.1 _ hre]
    rfl
  · exact h.2 ResolverOutcome.err

/-- C3: when the bearer token is unset and a resolver is installed, a
non-empty resolved token X yields the authorization header Bearer X; a
null resolver result or a thrown resolver error leaves the authorization
header exactly as the caller supplied it, and the dispatch still returns
an envelope rather than raising. -/
theorem resolver_token_when_no_bearer (st : ClientState) (env : RequestEnv)
    (path : String) (init : RequestInit) (resp : ResponseModel)
    (hb : st.bearerToken = none) (hres : st.hasTokenResolver = true)
    (hf : env.fetchOutcome = FetchOutcome.ok resp) :
    (∀ X r, X ≠ "" → env.resolverOutcome = ResolverOutcome.ok (some X) →
      (Laravel.request st env path init).1 = Except.ok r →
      headerGet r.config.headers "Authorization" = some ("Bearer " ++ X))
  ∧ (∀ r, (env.resolverOutcome = ResolverOutcome.ok none
        ∨ env.resolverOutcome = ResolverOutcome.err) →
      (Laravel.request st env path init).1 = Except.ok r →
      headerGet r.config.headers "Authorization"
        = headerGet (headersOfList init.headers) "Authorization")
  ∧ (Laravel.request st env path init).1
      = Except.ok (Laravel.createLaravelResponse resp
          (Laravel.requestConfig init (Laravel.composeHeaders st env init))) := by
  have hcond : (st.hasTokenResolver && !(jsTruthy st.bearerToken)) = true := by
    rw [hres, hb]
    rfl
  have hok : (Laravel.request st env path init).1
      = Except.ok (Laravel.createLaravelResponse resp
          (Laravel.requestConfig init (Laravel.composeHeaders st env init))) := by
    rw [Laravel.request_ok st env path init resp hf]
  refine ⟨?_, ?_, hok⟩
  · intro X r hX hro hr
    rw [hok] at hr
    obtain rfl := Except.ok.inj hr
    show headerGet (Laravel.composeHeaders st env init) "Authorization"
      = some ("Bearer " ++ X)
    rw [Laravel.composeHeaders_get_auth]
    simp only [hcond, if_true, hro]
    rw [if_pos hX]
  · intro r hro hr
    rw [hok] at hr
    obtain rfl := Except.ok.inj hr
    show headerGet (Laravel.composeHeaders st env init) "Authorization"
      = headerGet (headersOfList init.headers) "Authorization"
    rw [Laravel.composeHeaders_get_auth]
    rcases hro with h | h <;> simp [hcond, h]

/-- Witness for C3 at a concrete dispatch with a resolver returning a
token. -/
theorem resolver_token_when_no_bearer_witness :
    ((Laravel.request stC3
        (envWith (FetchOutcome.ok respJson) (ResolverOutcome.ok (some "tk")))
        "/x" {}).1.map
      (fun r => headerGet r.config.headers "Authorization"))
      = Except.ok (some "Bearer tk") := by
  have h := resolver_token_when_no_bearer stC3
    (envWith (FetchOutcome.ok respJson) (ResolverOutcome.ok (some "tk")))
    "/x" {} respJson rfl rfl rfl
  have hok := h.2.2
  rw [hok]
  simp only [Except.map]
  rw [h.1 "tk" _ (by decide) rfl hok]
  rfl

/-- C4 counterexample: an explicitly set empty CSRF token does not win
over the cookie-derived value, because the empty string is falsy; the
dispatched X-XSRF-TOKEN header is the percent-decoded cookie extraction,
not the explicit value. -/
theorem empty_explicit_csrf_does_not_win :
    stC4.csrfToken = some ""
  ∧ ((Laravel.request stC4 envOk "/x" {}).1.map
      (fun r => headerGet r.config.headers "X-XSRF-TOKEN"))
      = Except.ok (some "abc def")
  ∧ some "abc def" ≠ (some "" : Option String) := by
  exact ⟨rfl, rfl, by decide⟩

/-- C4 amended: when the effective cookie string's first XSRF-TOKEN
entry is XSRF-TOKEN=abc%20def, the dispatched X-XSRF-TOKEN header is the
percent-decoded value abc def, unless a non-empty explicit csrfToken is
set, in which case that explicit value wins; an empty explicit token is
ignored and the cookie-derived value is used. -/
theorem explicit_csrf_precedence (st : ClientState) (env : RequestEnv)
    (path : String) (init : RequestInit) (c : String)
    (hc : Laravel.effectiveCookies st env = some c)
    (hfind : (jsSplitSemiSpace c).find? (fun row => jsStartsWith row "XSRF-TOKEN=")
      = some "XSRF-TOKEN=abc%20def") :
    (∀ tok r, st.csrfToken = some tok → tok ≠ "" →
      (Laravel.request st env path init).1 = Except.ok r →
      headerGet r.config.headers "X-XSRF-TOKEN" = some tok)
  ∧ (jsTruthy st.csrfToken = false →
      ∀ r, (Laravel.request st env path init).1 = Except.ok r →
      headerGet r.config.headers "X-XSRF-TOKEN" = some "abc def") := by
  have hcne : c ≠ "" := by
    intro h
    rw [h] at hfind
    exact absurd hfind (by decide)
  have hext : Laravel.extractCsrfToken c = some "abc def" := by
    unfold Laravel.extractCsrfToken
    rw [hfind]
    rfl
  constructor
  · intro tok r htok hne hr
    cases hfo : env.fetchOutcome with
    | err =>
      rw [Laravel.request_err st env path init hfo] at hr
      exact absurd hr (by simp)
    | ok resp =>
      rw [Laravel.request_ok st env path init resp hfo] at hr
      obtain rfl := Except.ok.inj hr
      show headerGet (Laravel.composeHeaders st env init) "X-XSRF-TOKEN" = some tok
      rw [Laravel.composeHeaders_get_xsrf, htok]
      dsimp only
      rw [if_pos hne]
  · intro hcsrf r hr
    cases hfo : env.fetchOutcome with
    | err =>
      rw [Laravel.request_err st env path init hfo] at hr
      exact absurd hr (by simp)
    | ok resp =>
      rw [Laravel.request_ok st env path init resp hfo] at hr
      obtain rfl := Except.ok.inj hr
      show headerGet (Laravel.composeHeaders st env init) "X-XSRF-TOKEN"
        = some "abc def"
      rw [Laravel.composeHeaders_get_xsrf]
      cases hct : st.csrfToken with
      | none =>
        dsimp only
        rw [hc]
        dsimp only
        rw [if_pos hcne, hext]
        dsimp only
        rw [if_pos (by decide : ("abc def" : String) ≠ "")]
      | some tok =>
        have htokempty : tok = "" := by
          rw [hct] at hcsrf
          simpa [jsTruthy] using hcsrf
        subst htokempty
        dsimp only
        rw [if_neg (by simp), hc]
        dsimp only
        rw [if_pos hcne, hext]
        dsimp only
        rw [if_pos (by decide : ("abc def" : String) ≠ "")]

/-- Witness for the amended C4 at a concrete dispatch with the example
cookie and no explicit token. -/
theorem explicit_csrf_precedence_witness :
    ((Laravel.request stC4w envOk "/x" {}).1.map
      (fun r => headerGet r.config.headers "X-XSRF-TOKEN"))
      = Except.ok (some "abc def") := by
  have h := explicit_csrf_precedence stC4w envOk "/x" {} "XSRF-TOKEN=abc%20def"
    rfl rfl
  have hok : (Laravel.request stC4w envOk "/x" {}).1
      = Except.ok (Laravel.createLaravelResponse respJson
          (Laravel.requestConfig {} (Laravel.composeHeaders stC4w envOk {}))) := by
    rw [Laravel.request_ok stC4w envOk "/x" {} respJson rfl]
  rw [hok]
  simp only [Except.map]
  rw [h.2 rfl _ hok]

/-- C5: evaluation of the URL building of get at a raw-query-string
params argument.  The code iterates Object.keys over the string,
appending one query parameter per character keyed by its index, so the
dispatched URL does not carry the raw query string verbatim, contrary to
the claim and to the repository README; the mapping form of params works
as claimed. -/
theorem get_raw_string_params_bug :
    (Laravel.getUrl "/api/users" "https://h"
        (some { params := some (GetParams.raw "a=1") })).params
      = [("0", "a"), ("1", "="), ("2", "1")]
  ∧ JsURL.render (Laravel.getUrl "/api/users" "https://h"
        (some { params := some (GetParams.raw "a=1") }))
      = "https://h/api/users?0=a&1=%3D&2=1"
  ∧ JsURL.render (Laravel.getUrl "/api/users" "https://h"
        (some { params := some (GetParams.raw "a=1") }))
      ≠ "https://h/api/users?a=1"
  ∧ (Laravel.getUrl "/api/users" "https://h"
        (some { params := some (GetParams.mapping
          [("search", JSValue.str "keyword"), ("page", JSValue.num 1)]) })).params
      = [("search", "keyword"), ("page", "1")] := by
  refine ⟨rfl, rfl, ?_, rfl⟩
  have h2 : JsURL.render (Laravel.getUrl "/api/users" "https://h"
      (some { params := some (GetParams.raw "a=1") }))
      = "https://h/api/users?0=a&1=%3D&2=1" := rfl
  rw [h2]
  decide

/-- Envelope of a mutating-verb dispatch whose transport call resolves. -/
theorem Laravel.sendRequest_fst (st : ClientState) (env : RequestEnv)
    (endpoint method : String) (body : Option JsBody)
    (nextOptions : Option NextFetchRequestConfig) (resp : ResponseModel)
    (hf : env.fetchOutcome = FetchOutcome.ok resp) :
    (Laravel.sendRequest st env endpoint method body nextOptions).1
      = Except.ok (Laravel.createLaravelResponse resp
          (Laravel.requestConfig (Laravel.sendInit method body nextOptions)
            (Laravel.composeHeaders st env
              (Laravel.sendInit method body nextOptions)))) := by
  rw [Laravel.sendRequest_ok st env endpoint method body nextOptions resp hf]

/-- C6: when a mutating-verb dispatch gets a response carrying Set-Cookie
headers, their values joined with semicolon-space become the stored
cookie value, and a following dispatch on the resulting state (absent an
explicit override) attaches exactly that joined value as its cookie
header. -/
theorem set_cookies_captured_and_attached (st : ClientState) (env : RequestEnv)
    (endpoint method : String) (body : Option Laravel.JsBody)
    (nextOptions : Option NextFetchRequestConfig) (resp : ResponseModel)
    (hf : env.fetchOutcome = FetchOutcome.ok resp)
    (hlen : resp.setCookies ≠ [])
    (hne : String.intercalate "; " resp.setCookies ≠ "") :
    (Laravel.sendRequest st env endpoint method body nextOptions).2.cookies
      = some (String.intercalate "; " resp.setCookies)
  ∧ (∀ env2 path2 init2 resp2 r2,
      env2.fetchOutcome = FetchOutcome.ok resp2 →
      (Laravel.request (Laravel.sendRequest st env endpoint method body nextOptions).2
        env2 path2 init2).1 = Except.ok r2 →
      headerGet r2.config.headers "cookie"
        = some (String.intercalate "; " resp.setCookies)) := by
  have hlen2 : resp.setCookies.length > 0 := List.length_pos.mpr hlen
  have hsr : (Laravel.sendRequest st env endpoint method body nextOptions).2
      = { st with cookies := some (String.intercalate "; " resp.setCookies) } := by
    rw [Laravel.sendRequest_ok st env endpoint method body nextOptions resp hf]
    dsimp only
    rw [if_pos hlen2]
  constructor
  · rw [hsr]
  · intro env2 path2 init2 resp2 r2 hf2 hr2
    rw [hsr] at hr2
    rw [Laravel.request_ok _ env2 path2 init2 resp2 hf2] at hr2
    obtain rfl := Except.ok.inj hr2
    show headerGet (Laravel.composeHeaders
      { st with cookies := some (String.intercalate "; " resp.setCookies) }
      env2 init2) "cookie" = some (String.intercalate "; " resp.setCookies)
    rw [Laravel.composeHeaders_get_cookie]
    have heff : Laravel.effectiveCookies
        { st with cookies := some (String.intercalate "; " resp.setCookies) } env2
        = some (String.intercalate "; " resp.setCookies) := by
      unfold Laravel.effectiveCookies
      simp
    rw [heff]
    dsimp only
    rw [if_pos hne]

/-- Witness for C6 at a concrete POST whose response carries the
Set-Cookie values a=1 and b=2, followed by a concrete dispatch. -/
theorem set_cookies_captured_and_attached_witness :
    (Laravel.sendRequest stSample
      (envWith (FetchOutcome.ok respSetCookie) (ResolverOutcome.ok none))
      "/api/x" "POST" none none).2.cookies = some "a=1; b=2"
  ∧ ((Laravel.request
      (Laravel.sendRequest stSample
        (envWith (FetchOutcome.ok respSetCookie) (ResolverOutcome.ok none))
        "/api/x" "POST" none none).2 envOk "/y" {}).1.map
      (fun r => headerGet r.config.headers "cookie"))
      = Except.ok (some "a=1; b=2") := by
  have h := set_cookies_captured_and_attached stSample
    (envWith (FetchOutcome.ok respSetCookie) (ResolverOutcome.ok none))
    "/api/x" "POST" none none respSetCookie rfl (by decide) (by decide)
  constructor
  · exact h.1.trans rfl
  · have hok : (Laravel.request
        (Laravel.sendRequest stSample
          (envWith (FetchOutcome.ok respSetCookie) (ResolverOutcome.ok none))
          "/api/x" "POST" none none).2 envOk "/y" {}).1
        = Except.ok (Laravel.createLaravelResponse respJson
            (Laravel.requestConfig {} (Laravel.composeHeaders
              (Laravel.sendRequest stSample
                (envWith (FetchOutcome.ok respSetCookie) (ResolverOutcome.ok none))
                "/api/x" "POST" none none).2 envOk {}))) := by
      rw [Laravel.request_ok _ envOk "/y" {} respJson rfl]
    rw [hok]
    simp only [Except.map]
    rw [h.2 envOk "/y" {} respJson _ rfl hok]
    rfl

/-- C7: body-type detection of the mutating verbs, observed on the
dispatched configuration: a plain mapping is JSON-serialized with an
application/json content type; a string passes through unmodified with a
text/plain content type; FormData, Blob and ArrayBuffer values pass
through unmodified with no forced content type; an absent body yields no
request body and no forced content type. -/
theorem body_type_detection (st : ClientState) (env : RequestEnv)
    (endpoint method : String)
    (nextOptions : Option NextFetchRequestConfig) (resp : ResponseModel)
    (hf : env.fetchOutcome = FetchOutcome.ok resp) :
    (∀ entries r,
      (Laravel.sendRequest st env endpoint method
        (some (Laravel.JsBody.obj entries)) nextOptions).1 = Except.ok r →
      r.config.body = some (BodyVal.str (jsonStringify (JSValue.obj entries)))
      ∧ headerGet r.config.headers "Content-Type" = some "application/json")
  ∧ (∀ s r,
      (Laravel.sendRequest st env endpoint method
        (some (Laravel.JsBody.str s)) nextOptions).1 = Except.ok r →
      r.config.body = some (BodyVal.str s)
      ∧ headerGet r.config.headers "Content-Type" = some "text/plain")
  ∧ (∀ id r,
      (Laravel.sendRequest st env endpoint method
        (some (Laravel.JsBody.formData id)) nextOptions).1 = Except.ok r →
      r.config.body = some (BodyVal.formData id)
      ∧ headerGet r.config.headers "Content-Type" = none)
  ∧ (∀ id r,
      (Laravel.sendRequest st env endpoint method
        (some (Laravel.JsBody.blob id)) nextOptions).1 = Except.ok r →
      r.config.body = some (BodyVal.blob id)
      ∧ headerGet r.config.headers "Content-Type" = none)
  ∧ (∀ id r,
      (Laravel.sendRequest st env endpoint method
        (some (Laravel.JsBody.arrayBuffer id)) nextOptions).1 = Except.ok r →
      r.config.body = some (BodyVal.arrayBuffer id)
      ∧ headerGet r.config.headers "Content-Type" = none)
  ∧ (∀ r,
      (Laravel.sendRequest st env endpoint method none nextOptions).1 = Except.ok r →
      r.config.body = none
      ∧ headerGet r.config.headers "Content-Type" = none) := by
  refine ⟨?_, ?_, ?_, ?_, ?_, ?_⟩
  · intro entries r hr
    rw [Laravel.sendRequest_fst st env endpoint method _ nextOptions resp hf] at hr
    obtain rfl := Except.ok.inj hr
    refine ⟨rfl, ?_⟩
    show headerGet (Laravel.composeHeaders st env
      (Laravel.sendInit method (some (Laravel.JsBody.obj entries)) nextOptions))
      "Content-Type" = some "application/json"
    rw [Laravel.composeHeaders_get_contentType]
    rfl
  · intro s r hr
    rw [Laravel.sendRequest_fst st env endpoint method _ nextOptions resp hf] at hr
    obtain rfl := Except.ok.inj hr
    refine ⟨rfl, ?_⟩
    show headerGet (Laravel.composeHeaders st env
      (Laravel.sendInit method (some (Laravel.JsBody.str s)) nextOptions))
      "Content-Type" = some "text/plain"
    rw [Laravel.composeHeaders_get_contentType]
    rfl
  · intro id r hr
    rw [Laravel.sendRequest_fst st env endpoint method _ nextOptions resp hf] at hr
    obtain rfl := Except.ok.inj hr
    refine ⟨rfl, ?_⟩
    show headerGet (Laravel.composeHeaders st env
      (Laravel.sendInit method (some (Laravel.JsBody.formData id)) nextOptions))
      "Content-Type" = none
    rw [Laravel.composeHeaders_get_contentType]
    rfl
  · intro id r hr
    rw [Laravel.sendRequest_fst st env endpoint method _ nextOptions resp hf] at hr
    obtain rfl := Except.ok.inj hr
    refine ⟨rfl, ?_⟩
    show headerGet (Laravel.composeHeaders st env
      (Laravel.sendInit method (some (Laravel.JsBody.blob id)) nextOptions))
      "Content-Type" = none
    rw [Laravel.composeHeaders_get_contentType]
    rfl
  · intro id r hr
    rw [Laravel.sendRequest_fst st env endpoint method _ nextOptions resp hf] at hr
    obtain rfl := Except.ok.inj hr
    refine ⟨rfl, ?_⟩
    show headerGet (Laravel.composeHeaders st env
      (Laravel.sendInit method (some (Laravel.JsBody.arrayBuffer id)) nextOptions))
      "Content-Type" = none
    rw [Laravel.composeHeaders_get_contentType]
    rfl
  · intro r hr
    rw [Laravel.sendRequest_fst st env endpoint method _ nextOptions resp hf] at hr
    obtain rfl := Except.ok.inj hr
    refine ⟨rfl, ?_⟩
    show headerGet (Laravel.composeHeaders st env
      (Laravel.sendInit method none nextOptions)) "Content-Type" = none
    rw [Laravel.composeHeaders_get_contentType]
    rfl

/-- Witness for C7 at a concrete POST with the mapping body of the
specification example. -/
theorem body_type_detection_witness :
    ((Laravel.sendRequest stSample envOk "/api/x" "POST"
        (some (Laravel.JsBody.obj [("x", JSValue.num 1)])) none).1.map
      (fun r => (r.config.body, headerGet r.config.headers "Content-Type")))
      = Except.ok
          (some (BodyVal.str (jsonStringify (JSValue.obj [("x", JSValue.num 1)]))),
           some "application/json") := by
  have h := body_type_detection stSample envOk "/api/x" "POST" none respJson rfl
  have hok := Laravel.sendRequest_fst stSample envOk "/api/x" "POST"
    (some (Laravel.JsBody.obj [("x", JSValue.num 1)])) none respJson rfl
  have h1 := h.1 [("x", JSValue.num 1)] _ hok
  rw [hok]
  simp only [Except.map]
  rw [h1.1, h1.2]
